import Mathlib

/-!
Judging server (`src/server.js`): cache-aside problem lookup and the `/submit`
pipeline.

A shallow embedding of the two request handlers `GET /problems/:id` and
`POST /submit` of `src/server.js`.

* Text values are `String`; a JavaScript string is truthy exactly when it is
  non-empty, a nullable value is `Option`.
* The cache (Redis), the working directory (`fs`) and the log of what the
  handler did to its collaborators are explicit state (`World`, `Run`).
* What the outside world answers (the store, the JSON codec, the compiler,
  every test process) is collected in `Env`.
* The callbacks of `exec` are separate functions (`compileCallback`,
  `testCallback`); the order in which the test processes complete is an
  explicit list of test positions (`runSubmit`).
* A throw of the store lookup or of `JSON.parse` goes to the `catch` of the
  handler; the cache calls, `mkdirSync` and `writeFileSync` are taken to
  succeed; a throw of `unlinkSync` inside a callback is recorded as uncaught.
-/

namespace CodeCompiler

/-! ## Data model -/

/-- Modelled from the spec: one test case of a problem (the schema file
`models/problem.model.js` is not among the sources); `input` is fed to the
program, `expected` is compared with the trimmed standard output. -/
structure TestCase where
  input : String
  expected : String
  deriving DecidableEq, Repr

/-- Modelled from the spec: a problem document (the schema file
`models/problem.model.js` is not among the sources): identifier, title,
statement text and the ordered test cases. -/
structure Problem where
  id : String
  title : String
  description : String
  testCases : List TestCase
  deriving DecidableEq, Repr

/-- The body of a `/submit` request: `const { language, code, problemId } = req.body`. -/
structure SubmitRequest where
  language : String
  code : String
  problemId : String
  deriving DecidableEq, Repr

/-- The error object `exec` hands to its callback; only `message` is read. -/
structure ExecError where
  message : String
  deriving DecidableEq, Repr

/-- The three arguments of an `exec` callback: `(err, stdout, stderr)`. -/
structure ExecOutcome where
  execErr : Option ExecError
  stdout : String
  stderr : String
  deriving DecidableEq, Repr

/-- One element of `results`: `{ test, passed, output }`. -/
structure TestResult where
  test : Nat
  passed : Bool
  output : String
  deriving DecidableEq, Repr

/-! ## `String.prototype.trim` -/

/-- The code points `trim` strips: ECMAScript WhiteSpace and LineTerminator. -/
def isJsWhiteSpace (c : Char) : Bool :=
  let n := c.toNat
  n == 0x09 || n == 0x0A || n == 0x0B || n == 0x0C || n == 0x0D || n == 0x20
    || n == 0xA0 || n == 0x1680 || (0x2000 ≤ n && n ≤ 0x200A)
    || n == 0x2028 || n == 0x2029 || n == 0x202F || n == 0x205F
    || n == 0x3000 || n == 0xFEFF

/-- Trimming on the list of characters: drop the white space at the front,
then the white space at the back. -/
def trimChars (l : List Char) : List Char :=
  ((l.dropWhile isJsWhiteSpace).reverse.dropWhile isJsWhiteSpace).reverse

/-- The method `stdout.trim()`. -/
def jsTrim (s : String) : String := ⟨trimChars s.data⟩

/-! ## The test callback's classification (lines 156-160) -/

/-- The object pushed onto `results` by the callback of the test at 0-based
position `index`:
`if (execErr || stderr) { test: index + 1, passed: false, output: stderr || execErr.message }`
`else { test: index + 1, passed: stdout.trim() === test.expected, output: stdout.trim() }`.
In the first branch with `execErr` null the guard held through `stderr`, so
`stderr || _` is `stderr` and `execErr.message` is not evaluated. -/
def testResult (index : Nat) (test : TestCase) (o : ExecOutcome) : TestResult :=
  if o.execErr.isSome || o.stderr != "" then
    { test := index + 1
      passed := false
      output :=
        match o.execErr with
        | some e => if o.stderr != "" then o.stderr else e.message
        | none => o.stderr }
  else
    { test := index + 1
      passed := jsTrim o.stdout == test.expected
      output := jsTrim o.stdout }

/-- The reference classification, following the specification's wording: a
failed run (execution error, or anything on standard error) is not passed and
reports the error text, standard error when present, else the execution
error's description; a clean run is passed exactly when the trimmed standard
output is the expected text, and reports the trimmed standard output. -/
def referenceClassification (i : Nat) (test : TestCase) (o : ExecOutcome) : TestResult :=
  match o.execErr, decide (o.stderr = "") with
  | none, true => ⟨i + 1, decide (jsTrim o.stdout = test.expected), jsTrim o.stdout⟩
  | some e, true => ⟨i + 1, false, e.message⟩
  | _, false => ⟨i + 1, false, o.stderr⟩

/-! ## Collaborators: cache, file system, store, JSON, child processes -/

/-- One key of the cache with its serialised value and the time it expires. -/
structure CacheEntry where
  key : String
  value : String
  expiresAt : Nat
  deriving DecidableEq, Repr

/-- The cache contents. -/
abbrev Cache := List CacheEntry

/-- The call `redisClient.get(key)` at time `now`: the value of the live entry
under `key`, or null. -/
def redisGet (c : Cache) (now : Nat) (key : String) : Option String :=
  (c.find? (fun e => e.key == key && decide (now < e.expiresAt))).map (fun e => e.value)

/-- The call `redisClient.setEx(key, ttl, value)` at time `now`: overwrite the
entry under `key`; it lives for `ttl` seconds. -/
def redisSetEx (c : Cache) (now : Nat) (key : String) (ttl : Nat) (value : String) : Cache :=
  ⟨key, value, now + ttl⟩ :: c.filter (fun e => e.key != key)

/-- The part of the file system the handler touches: the directories that
exist and the files (path and content). -/
structure Fs where
  dirs : List String
  files : List (String × String)
  deriving DecidableEq, Repr

/-- The function `path.join(a, b)` on the paths used here. -/
def pathJoin (a b : String) : String := a ++ "/" ++ b

/-- The call `fs.existsSync(p)`. -/
def existsSync (fs : Fs) (p : String) : Bool :=
  fs.dirs.contains p || fs.files.any (fun f => f.1 == p)

/-- The call `fs.mkdirSync(p, recursive)`: the directory exists afterwards. -/
def mkdirSync (fs : Fs) (p : String) : Fs :=
  { fs with dirs := p :: fs.dirs }

/-- The call `fs.writeFileSync(p, data)`: create or overwrite the file. -/
def writeFileSync (fs : Fs) (p : String) (data : String) : Fs :=
  { fs with files := (p, data) :: fs.files.filter (fun f => f.1 != p) }

/-- The call `fs.unlinkSync(p)`: remove the file; throws when it is absent. -/
def unlinkSync (fs : Fs) (p : String) : Except String Fs :=
  if fs.files.any (fun f => f.1 == p) then
    .ok { fs with files := fs.files.filter (fun f => f.1 != p) }
  else
    .error ("ENOENT: no such file or directory, unlink " ++ p)

/-- What the outside world answers during one request. -/
structure Env where
  /-- The directory of the server module, `__dirname`. -/
  dirname : String
  /-- The store lookup `Problem.findById(id)` / `Problem.findOne(_id: id)`: the
  document, null, or a thrown error. -/
  store : String → Except String (Option Problem)
  /-- The serialiser `JSON.stringify` on a problem. -/
  stringify : Problem → String
  /-- The deserialiser `JSON.parse` on a cached text: the problem, or a thrown error. -/
  parse : String → Except String Problem
  /-- The arguments the compiler process hands to its callback. -/
  compile : ExecOutcome
  /-- The arguments the process of the test at a 0-based position hands to its callback. -/
  run : Nat → ExecOutcome

/-- What a handler did to its collaborators, in order. -/
inductive Event where
  | storeRead (id : String)
  | compilerStarted (cmd : String)
  | testStarted (cmd : String) (index : Nat) (input : String)
  deriving DecidableEq, Repr

/-- The JSON body of a response. -/
inductive Body where
  | error (error : String)
  | errorDetails (error : String) (details : String)
  | problem (p : Problem)
  | results (results : List TestResult)
  deriving DecidableEq, Repr

/-- A response: status code (200 unless `res.status` was called) and body. -/
structure Response where
  status : Nat
  body : Body
  deriving DecidableEq, Repr

/-- The state between requests: cache and file system. -/
structure World where
  cache : Cache
  fs : Fs
  deriving DecidableEq, Repr

/-- The state of one request: cache and file system, the log of the
collaborators used, the responses sent on `res`, and the errors thrown out of
a callback. -/
structure Run where
  cache : Cache
  fs : Fs
  events : List Event
  responses : List Response
  uncaught : List String
  deriving DecidableEq, Repr

/-! ## `GET /problems/:id` (lines 86-107) -/

/-- The handler of `GET /problems/:id`. A cached text is used when it is
truthy (present and non-empty); a throw of `JSON.parse` or of the store lookup
goes to the `catch` and answers 500. -/
def getProblem (env : Env) (now : Nat) (w : World) (problemId : String) : Run :=
  let key := "problem:" ++ problemId
  match (redisGet w.cache now key).filter (fun s => s != "") with
  | some cachedProblem =>
    match env.parse cachedProblem with
    | .ok p => ⟨w.cache, w.fs, [], [⟨200, .problem p⟩], []⟩
    | .error m => ⟨w.cache, w.fs, [], [⟨500, .errorDetails "Database Error" m⟩], []⟩
  | none =>
    match env.store problemId with
    | .error m =>
      ⟨w.cache, w.fs, [.storeRead problemId], [⟨500, .errorDetails "Database Error" m⟩], []⟩
    | .ok none =>
      ⟨w.cache, w.fs, [.storeRead problemId], [⟨404, .error "Problem not found"⟩], []⟩
    | .ok (some problem) =>
      ⟨redisSetEx w.cache now key 3600 (env.stringify problem), w.fs,
        [.storeRead problemId], [⟨200, .problem problem⟩], []⟩

/-! ## `POST /submit` (lines 109-181) -/

/-- The variables the callbacks of `/submit` close over. -/
structure Job where
  problem : Problem
  filePath : String
  outputFilePath : String
  deriving DecidableEq, Repr

/-- Lines 125-145: make sure the directory exists, write the source file and
start the compiler. -/
def prepare (env : Env) (r : Run) (req : SubmitRequest) (problem : Problem) : Run × Option Job :=
  let tempDir := pathJoin env.dirname "submissions"
  let fs1 := if !existsSync r.fs tempDir then mkdirSync r.fs tempDir else r.fs
  let fileExt := if req.language == "c" then "c" else "cpp"
  let fileName := "solution." ++ fileExt
  let filePath := pathJoin tempDir fileName
  let fs2 := writeFileSync fs1 filePath req.code
  let outputFilePath := pathJoin tempDir "solution.out"
  let compileCmd :=
    if req.language == "c" then "gcc " ++ filePath ++ " -o " ++ outputFilePath
    else "g++ " ++ filePath ++ " -o " ++ outputFilePath
  ({ r with fs := fs2, events := r.events ++ [.compilerStarted compileCmd] },
    some ⟨problem, filePath, outputFilePath⟩)

/-- Lines 110-145 and the `catch`: resolve the problem (cache first, then the
store, which populates the cache for three hours), then `prepare`. The second
component is the closure handed to the compiler callback, when the compiler
was started. -/
def submit (env : Env) (now : Nat) (w : World) (req : SubmitRequest) : Run × Option Job :=
  let key := "problem:" ++ req.problemId
  match (redisGet w.cache now key).filter (fun s => s != "") with
  | none =>
    match env.store req.problemId with
    | .error m =>
      (⟨w.cache, w.fs, [.storeRead req.problemId],
        [⟨500, .errorDetails "Internal Server Error" m⟩], []⟩, none)
    | .ok none =>
      (⟨w.cache, w.fs, [.storeRead req.problemId], [⟨404, .error "Problem not found"⟩], []⟩, none)
    | .ok (some problem) =>
      prepare env
        ⟨redisSetEx w.cache now key (60 * 60 * 3) (env.stringify problem), w.fs,
          [.storeRead req.problemId], [], []⟩ req problem
  | some cached =>
    match env.parse cached with
    | .error m => (⟨w.cache, w.fs, [], [⟨500, .errorDetails "Internal Server Error" m⟩], []⟩, none)
    | .ok problem => prepare env ⟨w.cache, w.fs, [], [], []⟩ req problem

/-- What the compiler process leaves behind: when it reports no error it has
written the artefact `solution.out`. -/
def compilerEffect (env : Env) (job : Job) (fs : Fs) : Fs :=
  match env.compile.execErr with
  | none => writeFileSync fs job.outputFilePath "<executable>"
  | some _ => fs

/-- The state of the judging of one submission: the request state and the two
variables `results` and `completed` of the compiler callback. -/
structure Judging where
  run : Run
  results : List TestResult
  completed : Nat
  deriving DecidableEq, Repr

/-- Lines 145-177 without the test callbacks: on a compile error answer it and
stop; otherwise start one process per test case, in order, each with its input
on standard input. The second component lists the callbacks now pending, each
with the `index` and `test` it closes over. -/
def compileCallback (env : Env) (job : Job) (r : Run) : Judging × List (Nat × TestCase) :=
  match env.compile.execErr with
  | some _ =>
    let sent : Response := ⟨200, .errorDetails "Compilation Error" env.compile.stderr⟩
    (⟨{ r with responses := r.responses ++ [sent] }, [], 0⟩, [])
  | none =>
    let pending := job.problem.testCases.enum
    let started := pending.map (fun p => Event.testStarted job.outputFilePath p.1 p.2.input)
    (⟨{ r with events := r.events ++ started }, [], 0⟩, pending)

/-- Lines 155-171: the callback of the test process at position `index`. It
records the result, counts it, and when the count reaches the number of test
cases it sends the results and deletes the two files (a throw of the first
`unlinkSync` skips the second). -/
def testCallback (job : Job) (index : Nat) (test : TestCase) (o : ExecOutcome)
    (s : Judging) : Judging :=
  let results := s.results ++ [testResult index test o]
  let completed := s.completed + 1
  if completed == job.problem.testCases.length then
    let r1 : Run := { s.run with responses := s.run.responses ++ [⟨200, .results results⟩] }
    match unlinkSync r1.fs job.filePath with
    | .error m => ⟨{ r1 with uncaught := r1.uncaught ++ [m] }, results, completed⟩
    | .ok fs1 =>
      match unlinkSync fs1 job.outputFilePath with
      | .error m => ⟨{ r1 with fs := fs1, uncaught := r1.uncaught ++ [m] }, results, completed⟩
      | .ok fs2 => ⟨{ r1 with fs := fs2 }, results, completed⟩
  else
    ⟨s.run, results, completed⟩

/-- The process of the test at position `i` completes: its pending callback
fires with the outcome of that process. -/
def fire (env : Env) (job : Job) (pending : List (Nat × TestCase)) (s : Judging) (i : Nat) :
    Judging :=
  match pending[i]? with
  | some (index, test) => testCallback job index test (env.run index) s
  | none => s

/-- The test processes complete in the order `order` (positions of the tests). -/
def fireAll (env : Env) (job : Job) (pending : List (Nat × TestCase)) (order : List Nat)
    (s : Judging) : Judging :=
  order.foldl (fire env job pending) s

/-- A whole `/submit` request: the handler, the compiler callback, then the
test callbacks in the order `order` in which the test processes complete. -/
def runSubmit (env : Env) (now : Nat) (w : World) (req : SubmitRequest) (order : List Nat) :
    Judging :=
  match submit env now w req with
  | (r, none) => ⟨r, [], 0⟩
  | (r, some job) =>
    let started := compileCallback env job { r with fs := compilerEffect env job r.fs }
    fireAll env job started.2 order started.1

/-! ## Auxiliary definitions for the statements -/

/-- The results recorded when the test processes at the positions `xs` complete in that order. -/
def recorded (env : Env) (tcs : List TestCase) (xs : List Nat) : List TestResult :=
  xs.filterMap (fun i => tcs[i]?.map (fun t => testResult i t (env.run i)))

/-- The state in which the test callbacks start when the compiler reported no error. -/
def judgingStart (env : Env) (job : Job) (r : Run) : Judging :=
  ⟨{ r with
      fs := compilerEffect env job r.fs
      events := r.events ++ job.problem.testCases.enum.map
        (fun p => Event.testStarted job.outputFilePath p.1 p.2.input) }, [], 0⟩

/-! ## Sample documents and a sample outside world -/

/-- The problem of the specification's scenario: one test, `2 3` gives `5`. -/
def sumProblem : Problem :=
  ⟨"p1", "Sum", "Print the sum of two integers", [⟨"2 3\n", "5"⟩]⟩

/-- A problem with two test cases. -/
def twoTestProblem : Problem :=
  ⟨"p2", "Double", "Print twice the input", [⟨"1\n", "2"⟩, ⟨"4\n", "8"⟩]⟩

/-- A problem whose list of test cases is empty. -/
def emptyProblem : Problem :=
  ⟨"p0", "Nothing", "No test cases yet", []⟩

/-- The documents of the sample store. -/
def sampleDocs : List Problem := [sumProblem, twoTestProblem, emptyProblem]

/-- The double quote character. -/
def quoteChar : Char := Char.ofNat 34

/-- The backslash character. -/
def backslashChar : Char := Char.ofNat 92

/-- A JSON string literal, escaping the quote, the backslash and the newline. -/
def jsonQuote (s : String) : String :=
  String.singleton quoteChar
    ++ String.join (s.data.map (fun c =>
        if c == quoteChar then String.mk [backslashChar, quoteChar]
        else if c == backslashChar then String.mk [backslashChar, backslashChar]
        else if c.toNat == 10 then String.mk [backslashChar, Char.ofNat 110]
        else String.singleton c))
    ++ String.singleton quoteChar

/-- A member of a JSON object: the quoted name, a colon, the value text. -/
def jsonMember (name value : String) : String :=
  jsonQuote name ++ ":" ++ value

/-- The JSON text of a test case. -/
def stringifyTestCase (t : TestCase) : String :=
  "\x7b" ++ jsonMember "input" (jsonQuote t.input) ++ ","
    ++ jsonMember "expected" (jsonQuote t.expected) ++ "\x7d"

/-- The JSON text of a problem document. -/
def sampleStringify (p : Problem) : String :=
  "\x7b" ++ jsonMember "_id" (jsonQuote p.id) ++ ","
    ++ jsonMember "title" (jsonQuote p.title) ++ ","
    ++ jsonMember "description" (jsonQuote p.description) ++ ","
    ++ jsonMember "testCases" ("[" ++ ",".intercalate (p.testCases.map stringifyTestCase) ++ "]")
    ++ "\x7d"

/-- Parsing restricted to the texts of the sample documents; any other text
is rejected as `JSON.parse` rejects a malformed text. -/
def sampleParse (s : String) : Except String Problem :=
  match sampleDocs.find? (fun p => sampleStringify p == s) with
  | some p => .ok p
  | none => .error "Unexpected token in JSON"

/-- The sample store: the sample documents by identifier. -/
def sampleStore (id : String) : Except String (Option Problem) :=
  .ok (sampleDocs.find? (fun p => p.id == id))

/-- A sample outside world: the compiler reports `compile` and the process of
the test at position `i` reports `run i`. -/
def sampleEnv (compile : ExecOutcome) (run : Nat → ExecOutcome) : Env :=
  ⟨"/app/src", sampleStore, sampleStringify, sampleParse, compile, run⟩

/-- A process that ends normally with `out` on standard output. -/
def cleanExit (out : String) : ExecOutcome := ⟨none, out, ""⟩

/-- A test process that prints `5` and also writes a note to standard error. -/
def noisyRun : Nat → ExecOutcome := fun _ => ⟨none, "5\n", "note: slow input"⟩

/-- The empty state: nothing cached, no directory, no file. -/
def emptyWorld : World := ⟨[], ⟨[], []⟩⟩

/-! ## Lemmas -/

/-- A list whose first element, if any, fails `p` keeps that property when
elements satisfying `p` are dropped from its end. -/
theorem dropWhile_rdropWhile_self {α : Type} (p : α → Bool) (a : List α)
    (h : a.dropWhile p = a) : (a.rdropWhile p).dropWhile p = a.rdropWhile p := by
  cases a with
  | nil => simp [List.rdropWhile]
  | cons x xs =>
    have hx : p x = false := by
      have := (List.dropWhile_eq_self_iff.mp h) (by simp)
      simpa using this
    have hpre : List.rdropWhile p (x :: xs) <+: x :: xs := List.rdropWhile_prefix p _
    obtain ⟨t, ht⟩ := hpre
    cases hb : List.rdropWhile p (x :: xs) with
    | nil => rfl
    | cons y ys =>
      rw [hb] at ht
      have hy : y = x := by
        have := congrArg List.head? ht
        simpa using this
      subst hy
      simp [List.dropWhile_cons, hx]

theorem trimChars_idem (l : List Char) : trimChars (trimChars l) = trimChars l := by
  have h1 : (trimChars l).dropWhile isJsWhiteSpace = trimChars l :=
    dropWhile_rdropWhile_self isJsWhiteSpace _ (List.dropWhile_idempotent _ _)
  show List.rdropWhile isJsWhiteSpace ((trimChars l).dropWhile isJsWhiteSpace) = trimChars l
  rw [h1]
  exact List.rdropWhile_idempotent _ _

theorem jsTrim_idem (s : String) : jsTrim (jsTrim s) = jsTrim s := by
  simp [jsTrim, trimChars_idem]

theorem testResult_eq_reference (i : Nat) (test : TestCase) (o : ExecOutcome) :
    testResult i test o = referenceClassification i test o := by
  obtain ⟨e, out, err⟩ := o
  cases e <;> by_cases h : err = "" <;> simp [testResult, referenceClassification, h, beq_eq_decide]

theorem testCallback_results (job : Job) (index : Nat) (test : TestCase) (o : ExecOutcome)
    (s : Judging) :
    (testCallback job index test o s).results = s.results ++ [testResult index test o] := by
  unfold testCallback
  simp only
  split
  · split
    · rfl
    · split <;> rfl
  · rfl


theorem recorded_cons (env : Env) (tcs : List TestCase) (i : Nat) (xs : List Nat)
    (hi : i < tcs.length) :
    recorded env tcs (i :: xs) = testResult i tcs[i] (env.run i) :: recorded env tcs xs := by
  simp [recorded, List.filterMap_cons, List.getElem?_eq_getElem hi]

theorem recorded_append (env : Env) (tcs : List TestCase) (xs ys : List Nat) :
    recorded env tcs (xs ++ ys) = recorded env tcs xs ++ recorded env tcs ys := by
  simp [recorded, List.filterMap_append]

theorem recorded_map_test (env : Env) (tcs : List TestCase) (xs : List Nat)
    (hx : ∀ i ∈ xs, i < tcs.length) :
    (recorded env tcs xs).map (fun r => r.test) = xs.map (fun i => i + 1) := by
  induction xs with
  | nil => rfl
  | cons i xs ih =>
    have hi : i < tcs.length := hx i (by simp)
    rw [recorded_cons env tcs i xs hi]
    simp only [List.map_cons]
    rw [ih (fun j hj => hx j (by simp [hj]))]
    congr 1
    unfold testResult
    split <;> rfl

theorem fire_valid (env : Env) (job : Job) (s : Judging) (i : Nat)
    (hi : i < job.problem.testCases.length) :
    fire env job job.problem.testCases.enum s i
      = testCallback job i job.problem.testCases[i] (env.run i) s := by
  simp [fire, List.getElem?_enum, List.getElem?_eq_getElem hi]

theorem testCallback_early (job : Job) (index : Nat) (test : TestCase) (o : ExecOutcome)
    (s : Judging) (h : s.completed + 1 ≠ job.problem.testCases.length) :
    testCallback job index test o s
      = ⟨s.run, s.results ++ [testResult index test o], s.completed + 1⟩ := by
  simp [testCallback, h]

theorem testCallback_last (job : Job) (index : Nat) (test : TestCase) (o : ExecOutcome)
    (s : Judging) (h : s.completed + 1 = job.problem.testCases.length) :
    (testCallback job index test o s).run.responses
        = s.run.responses ++ [⟨200, .results (s.results ++ [testResult index test o])⟩]
      ∧ (testCallback job index test o s).completed = s.completed + 1
      ∧ (testCallback job index test o s).run.events = s.run.events
      ∧ (testCallback job index test o s).run.cache = s.run.cache := by
  unfold testCallback
  simp only [h, beq_self_eq_true, if_true]
  split
  · simp
  · split <;> simp

theorem fireAll_early (env : Env) (job : Job) (xs : List Nat) (s : Judging)
    (hx : ∀ i ∈ xs, i < job.problem.testCases.length)
    (hlt : s.completed + xs.length < job.problem.testCases.length) :
    fireAll env job job.problem.testCases.enum xs s
      = ⟨s.run, s.results ++ recorded env job.problem.testCases xs, s.completed + xs.length⟩ := by
  induction xs generalizing s with
  | nil => cases s; simp [fireAll, recorded]
  | cons i xs ih =>
    have hi : i < job.problem.testCases.length := hx i (by simp)
    simp only [List.length_cons] at hlt
    have hstep : fireAll env job job.problem.testCases.enum (i :: xs) s
        = fireAll env job job.problem.testCases.enum xs
            (fire env job job.problem.testCases.enum s i) := rfl
    rw [hstep, fire_valid env job s i hi, testCallback_early job i _ _ s (by omega)]
    rw [ih _ (fun j hj => hx j (by simp [hj])) (by simp only; omega)]
    rw [recorded_cons env _ i xs hi]
    simp [Nat.add_assoc, Nat.add_comm 1]

theorem fireAll_append (env : Env) (job : Job) (pending : List (Nat × TestCase))
    (xs ys : List Nat) (s : Judging) :
    fireAll env job pending (xs ++ ys) s
      = fireAll env job pending ys (fireAll env job pending xs s) := by
  simp [fireAll, List.foldl_append]

theorem fireAll_full (env : Env) (job : Job) (xs : List Nat) (s : Judging)
    (hx : ∀ i ∈ xs, i < job.problem.testCases.length) (hne : xs ≠ [])
    (hlen : s.completed + xs.length = job.problem.testCases.length) :
    (fireAll env job job.problem.testCases.enum xs s).run.responses
        = s.run.responses
            ++ [⟨200, .results (s.results ++ recorded env job.problem.testCases xs)⟩]
      ∧ (fireAll env job job.problem.testCases.enum xs s).results
        = s.results ++ recorded env job.problem.testCases xs
      ∧ (fireAll env job job.problem.testCases.enum xs s).completed
        = job.problem.testCases.length
      ∧ (fireAll env job job.problem.testCases.enum xs s).run.events = s.run.events
      ∧ (fireAll env job job.problem.testCases.enum xs s).run.cache = s.run.cache := by
  obtain ⟨ini, last, rfl⟩ : ∃ ini last, xs = ini ++ [last] :=
    ⟨xs.dropLast, xs.getLast hne, (List.dropLast_append_getLast hne).symm⟩
  have hini : ∀ i ∈ ini, i < job.problem.testCases.length := fun i hi => hx i (by simp [hi])
  have hlast : last < job.problem.testCases.length := hx last (by simp)
  simp only [List.length_append, List.length_singleton] at hlen
  rw [fireAll_append, fireAll_early env job ini s hini (by omega)]
  have hone : ∀ t : Judging, fireAll env job job.problem.testCases.enum [last] t
      = fire env job job.problem.testCases.enum t last := fun _ => rfl
  rw [hone, fire_valid env job _ last hlast]
  have h := testCallback_last job last job.problem.testCases[last] (env.run last)
    ⟨s.run, s.results ++ recorded env job.problem.testCases ini, s.completed + ini.length⟩
    (by simp only; omega)
  have hr := testCallback_results job last job.problem.testCases[last] (env.run last)
    ⟨s.run, s.results ++ recorded env job.problem.testCases ini, s.completed + ini.length⟩
  have hrec : recorded env job.problem.testCases (ini ++ [last])
      = recorded env job.problem.testCases ini
          ++ [testResult last job.problem.testCases[last] (env.run last)] := by
    rw [recorded_append, recorded_cons env _ last [] hlast]; rfl
  rw [hrec]
  refine ⟨?_, ?_, ?_, ?_, ?_⟩
  · simpa [List.append_assoc] using h.1
  · simpa [List.append_assoc] using hr
  · rw [h.2.1]; simp only; omega
  · exact h.2.2.1
  · exact h.2.2.2


theorem recorded_length (env : Env) (tcs : List TestCase) (xs : List Nat)
    (hx : ∀ i ∈ xs, i < tcs.length) : (recorded env tcs xs).length = xs.length := by
  have h := congrArg List.length (recorded_map_test env tcs xs hx)
  simpa using h

theorem submit_job (env : Env) (now : Nat) (w : World) (req : SubmitRequest) (job : Job)
    (hs : (submit env now w req).2 = some job) :
    (submit env now w req).1.responses = []
      ∧ ∀ cmd i inp, Event.testStarted cmd i inp ∉ (submit env now w req).1.events := by
  unfold submit at hs ⊢
  simp only at hs ⊢
  split at hs
  · split at hs
    · simp at hs
    · simp at hs
    · simp [prepare]
  · split at hs
    · simp at hs
    · simp [prepare]

theorem runSubmit_compiled (env : Env) (now : Nat) (w : World) (req : SubmitRequest)
    (job : Job) (order : List Nat)
    (hs : (submit env now w req).2 = some job) (hc : env.compile.execErr = none) :
    runSubmit env now w req order
      = fireAll env job job.problem.testCases.enum order
          (judgingStart env job (submit env now w req).1) := by
  unfold runSubmit
  generalize submit env now w req = p at hs
  obtain ⟨r, j⟩ := p
  simp only at hs
  subst hs
  simp [compileCallback, hc, judgingStart]

theorem runSubmit_compile_failed (env : Env) (now : Nat) (w : World) (req : SubmitRequest)
    (job : Job) (order : List Nat) (e : ExecError)
    (hs : (submit env now w req).2 = some job) (hc : env.compile.execErr = some e) :
    runSubmit env now w req order
      = ⟨{ (submit env now w req).1 with
            responses := (submit env now w req).1.responses
              ++ [⟨200, .errorDetails "Compilation Error" env.compile.stderr⟩] }, [], 0⟩ := by
  unfold runSubmit
  generalize submit env now w req = p at hs
  obtain ⟨r, j⟩ := p
  simp only at hs
  subst hs
  simp only [compileCallback, hc, compilerEffect]
  induction order with
  | nil => rfl
  | cons i xs ih => simpa [fireAll, fire] using ih



/-! ## The claims -/

/-- C4: for every test case at 0-based position `index` and every process
outcome, the result the test callback of `/submit` records (appends to
`results`) is the reference classification of that outcome. -/
theorem testCallback_records_reference (job : Job) (index : Nat) (test : TestCase)
    (o : ExecOutcome) (s : Judging) :
    (testCallback job index test o s).results
      = s.results ++ [referenceClassification index test o] := by
  rw [testCallback_results, testResult_eq_reference]

/-- C10: when the expected text of a test case differs from its own trimmed
form, the result recorded for that test has `passed = false` whatever the
process reports: only the standard output is trimmed before the comparison. -/
theorem untrimmed_expected_never_passes (test : TestCase)
    (h : test.expected ≠ jsTrim test.expected)
    (job : Job) (index : Nat) (o : ExecOutcome) (s : Judging) :
    (testCallback job index test o s).results = s.results ++ [testResult index test o]
      ∧ (testResult index test o).passed = false := by
  refine ⟨testCallback_results job index test o s, ?_⟩
  unfold testResult
  split
  · rfl
  · simp only [beq_eq_false_iff_ne, ne_eq]
    intro heq
    apply h
    rw [← heq, jsTrim_idem]

/-- Witness of C10 at the expected text `5` followed by a newline, with a
process that prints exactly that. -/
theorem untrimmed_expected_never_passes_witness :
    (⟨"2 3\n", "5\n"⟩ : TestCase).expected ≠ jsTrim (⟨"2 3\n", "5\n"⟩ : TestCase).expected
      ∧ (testResult 0 ⟨"2 3\n", "5\n"⟩ (cleanExit "5\n")).passed = false :=
  ⟨by decide,
    (untrimmed_expected_never_passes ⟨"2 3\n", "5\n"⟩ (by decide)
      ⟨sumProblem, "solution.c", "solution.out"⟩ 0 (cleanExit "5\n")
      ⟨⟨[], ⟨[], []⟩, [], [], []⟩, [], 0⟩).2⟩

/-- C7: when the compiler reports an error, `/submit` answers exactly
`error: "Compilation Error", details: <the compiler's standard error>`, and
it answers nothing else; no result is recorded and no test process is
started, whatever is said about the completion order. -/
theorem compile_error_response (env : Env) (now : Nat) (w : World) (req : SubmitRequest)
    (job : Job) (e : ExecError) (order : List Nat)
    (hs : (submit env now w req).2 = some job) (hc : env.compile.execErr = some e) :
    (runSubmit env now w req order).run.responses
        = [⟨200, .errorDetails "Compilation Error" env.compile.stderr⟩]
      ∧ (runSubmit env now w req order).results = []
      ∧ ∀ cmd i inp, Event.testStarted cmd i inp ∉ (runSubmit env now w req order).run.events := by
  rw [runSubmit_compile_failed env now w req job order e hs hc]
  obtain ⟨h1, h2⟩ := submit_job env now w req job hs
  refine ⟨by simp [h1], rfl, h2⟩

/-- Witness of C7: the scenario problem with a source the compiler rejects. -/
theorem compile_error_response_witness :
    (runSubmit (sampleEnv ⟨some ⟨"Command failed: gcc"⟩, "", "solution.c:1:10: error: expected declaration"⟩
        (fun _ => cleanExit "5\n")) 0 emptyWorld ⟨"c", "int main( ", "p1"⟩ [0]).run.responses
      = [⟨200, .errorDetails "Compilation Error" "solution.c:1:10: error: expected declaration"⟩] :=
  (compile_error_response
    (sampleEnv ⟨some ⟨"Command failed: gcc"⟩, "", "solution.c:1:10: error: expected declaration"⟩
      (fun _ => cleanExit "5\n")) 0 emptyWorld ⟨"c", "int main( ", "p1"⟩
    ⟨sumProblem, "/app/src/submissions/solution.c", "/app/src/submissions/solution.out"⟩
    ⟨"Command failed: gcc"⟩ [0] (by decide) rfl).1

/-- C9: a `/submit` request whose problem is neither in the cache nor in the
store is answered 404 `Problem not found`; cache and file system are left as
they were, and the only collaborator used is the store lookup: no compiler and
no test process is started. -/
theorem submit_unknown_problem (env : Env) (now : Nat) (w : World) (req : SubmitRequest)
    (order : List Nat)
    (hcache : redisGet w.cache now ("problem:" ++ req.problemId) = none)
    (hstore : env.store req.problemId = .ok none) :
    (runSubmit env now w req order).run.responses = [⟨404, .error "Problem not found"⟩]
      ∧ (runSubmit env now w req order).run.cache = w.cache
      ∧ (runSubmit env now w req order).run.fs = w.fs
      ∧ (runSubmit env now w req order).run.events = [.storeRead req.problemId] := by
  have h : submit env now w req
      = (⟨w.cache, w.fs, [.storeRead req.problemId], [⟨404, .error "Problem not found"⟩], []⟩,
          none) := by
    simp [submit, hcache, hstore]
  simp [runSubmit, h]

/-- Witness of C9: an identifier the sample store does not know, on the empty state. -/
theorem submit_unknown_problem_witness :
    (runSubmit (sampleEnv (cleanExit "") (fun _ => cleanExit "5\n")) 0 emptyWorld
        ⟨"c", "int main() \x7b\x7d", "nope"⟩ []).run.responses
      = [⟨404, .error "Problem not found"⟩] :=
  (submit_unknown_problem (sampleEnv (cleanExit "") (fun _ => cleanExit "5\n")) 0 emptyWorld
    ⟨"c", "int main() \x7b\x7d", "nope"⟩ [] (by decide) rfl).1


theorem mem_recorded (env : Env) (tcs : List TestCase) (xs : List Nat) (r : TestResult)
    (hr : r ∈ recorded env tcs xs) :
    ∃ i, ∃ h : i < tcs.length, i ∈ xs ∧ r = testResult i tcs[i] (env.run i) := by
  simp only [recorded, List.mem_filterMap] at hr
  obtain ⟨i, hi, hm⟩ := hr
  cases ht : tcs[i]? with
  | none => simp [ht] at hm
  | some t =>
    obtain ⟨hlt, hget⟩ := List.getElem?_eq_some.mp ht
    rw [ht] at hm
    simp only [Option.map, Option.some.injEq] at hm
    exact ⟨i, hlt, hi, by rw [hget]; exact hm.symm⟩

/-- With the compiler successful and at least one test case, once every test
process has completed (in any order `order`) the handler has answered once,
with the results recorded in completion order. -/
theorem runSubmit_all_reported (env : Env) (now : Nat) (w : World) (req : SubmitRequest)
    (job : Job) (order : List Nat)
    (hs : (submit env now w req).2 = some job) (hc : env.compile.execErr = none)
    (hN : 1 ≤ job.problem.testCases.length)
    (ho : order.Perm (List.range job.problem.testCases.length)) :
    (runSubmit env now w req order).run.responses
        = [⟨200, .results (recorded env job.problem.testCases order)⟩]
      ∧ (runSubmit env now w req order).results = recorded env job.problem.testCases order
      ∧ (runSubmit env now w req order).completed = job.problem.testCases.length := by
  have hlen : order.length = job.problem.testCases.length := by simpa using ho.length_eq
  have hval : ∀ i ∈ order, i < job.problem.testCases.length :=
    fun i hi => List.mem_range.mp (ho.subset hi)
  have hne : order ≠ [] := by
    intro h
    rw [h] at hlen
    simp at hlen
    omega
  rw [runSubmit_compiled env now w req job order hs hc]
  obtain ⟨h1, h2, h3, -, -⟩ := fireAll_full env job order
    (judgingStart env job (submit env now w req).1) hval hne (by simpa [judgingStart] using hlen)
  obtain ⟨hr, -⟩ := submit_job env now w req job hs
  refine ⟨?_, ?_, h3⟩
  · rw [h1]; simp [judgingStart, hr]
  · rw [h2]; simp [judgingStart]

/-- With the compiler successful, after the first `k` completions, `k` below
the number of test cases, nothing has been answered, and `k` results are
recorded and counted. -/
theorem runSubmit_some_reported (env : Env) (now : Nat) (w : World) (req : SubmitRequest)
    (job : Job) (order : List Nat) (k : Nat)
    (hs : (submit env now w req).2 = some job) (hc : env.compile.execErr = none)
    (ho : order.Perm (List.range job.problem.testCases.length))
    (hk : k < job.problem.testCases.length) :
    (runSubmit env now w req (order.take k)).run.responses = []
      ∧ (runSubmit env now w req (order.take k)).results.length = k
      ∧ (runSubmit env now w req (order.take k)).completed = k := by
  have hlen : order.length = job.problem.testCases.length := by simpa using ho.length_eq
  have hval : ∀ i ∈ order.take k, i < job.problem.testCases.length :=
    fun i hi => List.mem_range.mp (ho.subset (List.mem_of_mem_take hi))
  have htl : (order.take k).length = k := by
    rw [List.length_take]; omega
  obtain ⟨hr, -⟩ := submit_job env now w req job hs
  rw [runSubmit_compiled env now w req job _ hs hc]
  rw [fireAll_early env job (order.take k) _ hval (by simpa [judgingStart, htl] using hk)]
  refine ⟨by simp [judgingStart, hr], ?_, by simp [judgingStart, htl]⟩
  simp [judgingStart, recorded_length env _ _ hval, htl]

/-- C6: with at least one test case and the test callbacks firing once each
in any order, nothing is answered before the last callback; that callback,
which brings `completed` to the number of test cases, sends the one and only
response; the results sent carry every test number from 1 to that number
exactly once; and after every callback `completed` is the number of recorded
results. -/
theorem aggregation_answers_once_when_complete (env : Env) (now : Nat) (w : World)
    (req : SubmitRequest) (job : Job) (order : List Nat)
    (hs : (submit env now w req).2 = some job) (hc : env.compile.execErr = none)
    (hN : 1 ≤ job.problem.testCases.length)
    (ho : order.Perm (List.range job.problem.testCases.length)) :
    (∀ k, k < job.problem.testCases.length →
        (runSubmit env now w req (order.take k)).run.responses = [])
      ∧ (∃ rs, (runSubmit env now w req order).run.responses = [⟨200, .results rs⟩]
          ∧ (rs.map (fun r => r.test)).Perm
              ((List.range job.problem.testCases.length).map (fun i => i + 1)))
      ∧ (runSubmit env now w req order).completed = job.problem.testCases.length
      ∧ ∀ k, k ≤ job.problem.testCases.length →
          (runSubmit env now w req (order.take k)).completed = k
            ∧ (runSubmit env now w req (order.take k)).results.length = k := by
  have hlen : order.length = job.problem.testCases.length := by simpa using ho.length_eq
  have hval : ∀ i ∈ order, i < job.problem.testCases.length :=
    fun i hi => List.mem_range.mp (ho.subset hi)
  obtain ⟨h1, h2, h3⟩ := runSubmit_all_reported env now w req job order hs hc hN ho
  refine ⟨fun k hk => (runSubmit_some_reported env now w req job order k hs hc ho hk).1,
    ⟨_, h1, ?_⟩, h3, ?_⟩
  · rw [recorded_map_test env _ order hval]
    exact ho.map _
  · intro k hk
    rcases Nat.lt_or_ge k job.problem.testCases.length with hlt | hge
    · obtain ⟨-, ha, hb⟩ := runSubmit_some_reported env now w req job order k hs hc ho hlt
      exact ⟨hb, ha⟩
    · have hk2 : k = job.problem.testCases.length := Nat.le_antisymm hk hge
      have htake : order.take k = order := List.take_of_length_le (by omega)
      rw [htake, h3, h2, recorded_length env _ order hval, hlen]
      exact ⟨hk2.symm, hk2.symm⟩

/-- Witness of C6: the two-test problem, the second process completing first. -/
theorem aggregation_answers_once_when_complete_witness :
    (runSubmit (sampleEnv (cleanExit "") (fun i => cleanExit (if i = 0 then "2\n" else "8\n")))
        0 emptyWorld ⟨"c++", "int main() \x7b\x7d", "p2"⟩ ([1, 0].take 1)).run.responses = [] :=
  (aggregation_answers_once_when_complete
    (sampleEnv (cleanExit "") (fun i => cleanExit (if i = 0 then "2\n" else "8\n")))
    0 emptyWorld ⟨"c++", "int main() \x7b\x7d", "p2"⟩
    ⟨twoTestProblem, "/app/src/submissions/solution.cpp", "/app/src/submissions/solution.out"⟩
    [1, 0] (by decide) rfl (by decide) (by decide)).1 1 (by decide)

/-- Counterexample to C1 as stated: with two test cases and the second process
completing first, the first entry of the results sent has `test = 2`. -/
theorem results_not_in_index_order :
    (runSubmit (sampleEnv (cleanExit "") (fun i => cleanExit (if i = 0 then "2\n" else "8\n")))
        0 emptyWorld ⟨"c", "int main() \x7b\x7d", "p2"⟩ [1, 0]).run.responses
      = [⟨200, .results [⟨2, true, "8"⟩, ⟨1, true, "2"⟩]⟩] := by
  decide

/-- C1, amended: with at least one test case and a successful compile, for
every order in which the test processes complete the results sent are in
completion order, each attributed by its stored index: the entry at position
`k` has `test` one more than the 0-based position of the test whose process
completed `k`-th. Every test number occurs, and when the processes complete in
the order of the test cases the entry at position `k` (1-based) has `test = k`. -/
theorem results_follow_completion_order (env : Env) (now : Nat) (w : World)
    (req : SubmitRequest) (job : Job) (order : List Nat)
    (hs : (submit env now w req).2 = some job) (hc : env.compile.execErr = none)
    (hN : 1 ≤ job.problem.testCases.length)
    (ho : order.Perm (List.range job.problem.testCases.length)) :
    ∃ rs, (runSubmit env now w req order).run.responses = [⟨200, .results rs⟩]
      ∧ rs.map (fun r => r.test) = order.map (fun i => i + 1)
      ∧ (order = List.range job.problem.testCases.length →
          ∀ k, k < job.problem.testCases.length → (rs.map (fun r => r.test))[k]? = some (k + 1)) := by
  have hval : ∀ i ∈ order, i < job.problem.testCases.length :=
    fun i hi => List.mem_range.mp (ho.subset hi)
  obtain ⟨h1, -, -⟩ := runSubmit_all_reported env now w req job order hs hc hN ho
  refine ⟨_, h1, recorded_map_test env _ order hval, ?_⟩
  intro hord k hk
  rw [recorded_map_test env _ order hval, hord]
  simp [List.getElem?_map, List.getElem?_range hk]

/-- Witness of C1 amended: the two-test problem, the second process completing first. -/
theorem results_follow_completion_order_witness :
    ∃ rs, (runSubmit (sampleEnv (cleanExit "") (fun i => cleanExit (if i = 0 then "2\n" else "8\n")))
        0 emptyWorld ⟨"c", "int main() \x7b\x7d", "p2"⟩ [1, 0]).run.responses
          = [⟨200, .results rs⟩]
      ∧ rs.map (fun r => r.test) = [2, 1] :=
  let ⟨rs, h1, h2, _⟩ := results_follow_completion_order
    (sampleEnv (cleanExit "") (fun i => cleanExit (if i = 0 then "2\n" else "8\n")))
    0 emptyWorld ⟨"c", "int main() \x7b\x7d", "p2"⟩
    ⟨twoTestProblem, "/app/src/submissions/solution.c", "/app/src/submissions/solution.out"⟩
    [1, 0] (by decide) rfl (by decide) (by decide)
  ⟨rs, h1, h2⟩


/-- Counterexample to C5 as stated: the one test of the scenario problem, a
process whose trimmed standard output is the expected `5` but which also
writes to standard error; the single result sent has `passed = false`. -/
theorem matching_output_with_stderr_not_passed :
    (∀ i, ∀ h : i < sumProblem.testCases.length,
        jsTrim (noisyRun i).stdout = (sumProblem.testCases[i]).expected)
      ∧ (runSubmit (sampleEnv (cleanExit "") noisyRun)
          0 emptyWorld ⟨"c", "int main() \x7b\x7d", "p1"⟩ [0]).run.responses
        = [⟨200, .results [⟨1, false, "note: slow input"⟩]⟩] := by
  refine ⟨?_, by decide⟩
  intro i h
  have hi : i = 0 := by
    simp [sumProblem] at h
    exact h
  subst hi
  rfl

/-- C5, amended: with at least one test case and a successful compile, if
every test process ends without an execution error, writes nothing to standard
error, and its trimmed standard output is the expected text of its test, then
the results sent are as many as the test cases and every one has
`passed = true`. -/
theorem all_clean_matching_runs_pass (env : Env) (now : Nat) (w : World)
    (req : SubmitRequest) (job : Job) (order : List Nat)
    (hs : (submit env now w req).2 = some job) (hc : env.compile.execErr = none)
    (hN : 1 ≤ job.problem.testCases.length)
    (ho : order.Perm (List.range job.problem.testCases.length))
    (hclean : ∀ i, ∀ h : i < job.problem.testCases.length,
      (env.run i).execErr = none ∧ (env.run i).stderr = ""
        ∧ jsTrim (env.run i).stdout = (job.problem.testCases[i]).expected) :
    ∃ rs, (runSubmit env now w req order).run.responses = [⟨200, .results rs⟩]
      ∧ rs.length = job.problem.testCases.length
      ∧ ∀ r ∈ rs, r.passed = true := by
  have hlen : order.length = job.problem.testCases.length := by simpa using ho.length_eq
  have hval : ∀ i ∈ order, i < job.problem.testCases.length :=
    fun i hi => List.mem_range.mp (ho.subset hi)
  obtain ⟨h1, -, -⟩ := runSubmit_all_reported env now w req job order hs hc hN ho
  refine ⟨_, h1, by rw [recorded_length env _ order hval, hlen], ?_⟩
  intro r hr
  obtain ⟨i, hi, -, rfl⟩ := mem_recorded env _ order r hr
  obtain ⟨he, herr, hout⟩ := hclean i hi
  simp [testResult, he, herr, hout]

/-- Witness of C5 amended: the scenario of the specification, a program that
prints `5` and a newline. -/
theorem all_clean_matching_runs_pass_witness :
    ∃ rs, (runSubmit (sampleEnv (cleanExit "") (fun _ => cleanExit "5\n"))
        0 emptyWorld ⟨"c", "int main() \x7b\x7d", "p1"⟩ [0]).run.responses
          = [⟨200, .results rs⟩]
      ∧ rs.length = 1 ∧ ∀ r ∈ rs, r.passed = true :=
  all_clean_matching_runs_pass (sampleEnv (cleanExit "") (fun _ => cleanExit "5\n"))
    0 emptyWorld ⟨"c", "int main() \x7b\x7d", "p1"⟩
    ⟨sumProblem, "/app/src/submissions/solution.c", "/app/src/submissions/solution.out"⟩
    [0] (by decide) rfl (by decide) (by decide)
    (fun i h => by
      have hi : i = 0 := by
        simp [sumProblem] at h
        exact h
      subst hi
      exact ⟨rfl, rfl, rfl⟩)

/-- With no test case, no callback is pending: whatever completes, the state
after a successful compile stays as the compiler callback left it. -/
theorem runSubmit_no_tests (env : Env) (now : Nat) (w : World) (req : SubmitRequest)
    (job : Job) (order : List Nat)
    (hs : (submit env now w req).2 = some job) (hc : env.compile.execErr = none)
    (h0 : job.problem.testCases = []) :
    (runSubmit env now w req order).run.responses = []
      ∧ (runSubmit env now w req order).run.events = (submit env now w req).1.events := by
  rw [runSubmit_compiled env now w req job order hs hc, h0]
  obtain ⟨hr, -⟩ := submit_job env now w req job hs
  have hfix : ∀ s : Judging, fireAll env job ([] : List TestCase).enum order s = s := by
    intro s
    induction order with
    | nil => rfl
    | cons i xs ih => simpa [fireAll, fire] using ih
  rw [hfix]
  simp [judgingStart, h0, hr]

/-- C2, the code at the failing input: a problem with an empty list of test
cases and a source that compiles. The compiler is started, no test process is,
and the handler never answers: the list of responses stays empty, where the
claim has the response `results: []`. -/
theorem empty_test_list_never_answered :
    (runSubmit (sampleEnv (cleanExit "") (fun _ => cleanExit ""))
        0 emptyWorld ⟨"c", "int main() \x7b\x7d", "p0"⟩ []).run.responses = []
      ∧ (runSubmit (sampleEnv (cleanExit "") (fun _ => cleanExit ""))
        0 emptyWorld ⟨"c", "int main() \x7b\x7d", "p0"⟩ []).run.events
        = [.storeRead "p0", .compilerStarted
            "gcc /app/src/submissions/solution.c -o /app/src/submissions/solution.out"] := by
  decide

/-- On a compile error the source file written by the handler is still there
when the handler is done. -/
theorem compile_error_leaves_source (env : Env) (now : Nat) (w : World) (req : SubmitRequest)
    (job : Job) (e : ExecError) (order : List Nat)
    (hs : (submit env now w req).2 = some job) (hc : env.compile.execErr = some e) :
    existsSync (runSubmit env now w req order).run.fs job.filePath = true := by
  rw [runSubmit_compile_failed env now w req job order e hs hc]
  unfold submit at hs ⊢
  simp only at hs ⊢
  split at hs
  · split at hs
    · simp at hs
    · simp at hs
    · simp only [prepare, Option.some.injEq] at hs
      subst hs
      simp [prepare, existsSync, writeFileSync]
  · split at hs
    · simp at hs
    · simp only [prepare, Option.some.injEq] at hs
      subst hs
      simp [prepare, existsSync, writeFileSync]

/-- The path where all tests report does delete both files: after the scenario
of the specification no file is left in the directory. -/
theorem sample_success_deletes_both_files :
    (runSubmit (sampleEnv (cleanExit "") (fun _ => cleanExit "5\n"))
        0 emptyWorld ⟨"c", "int main() \x7b\x7d", "p1"⟩ [0]).run.fs
      = ⟨["/app/src/submissions"], []⟩ := by
  decide

/-- C3, the code at the failing input: the scenario problem with a source the
compiler rejects. The handler answers the compilation error and is done, and
the source file `solution.c` is still in the submissions directory, where the
claim has it deleted. -/
theorem compile_error_source_not_deleted :
    (runSubmit (sampleEnv ⟨some ⟨"Command failed: gcc"⟩, "", "solution.c:1:10: error"⟩
        (fun _ => cleanExit "5\n")) 0 emptyWorld ⟨"c", "int main( ", "p1"⟩ []).run.responses
        = [⟨200, .errorDetails "Compilation Error" "solution.c:1:10: error"⟩]
      ∧ (runSubmit (sampleEnv ⟨some ⟨"Command failed: gcc"⟩, "", "solution.c:1:10: error"⟩
        (fun _ => cleanExit "5\n")) 0 emptyWorld ⟨"c", "int main( ", "p1"⟩ []).run.fs
        = ⟨["/app/src/submissions"], [("/app/src/submissions/solution.c", "int main( ")]⟩ := by
  decide

theorem redisGet_setEx (c : Cache) (t1 t2 ttl : Nat) (key value : String) (ht : t2 < t1 + ttl) :
    redisGet (redisSetEx c t1 key ttl value) t2 key = some value := by
  simp [redisGet, redisSetEx, List.find?_cons, ht]

/-- C8: for a problem `P` in the store with no cache entry under
`problem:<P.id>`, `GET /problems/:id` answers `P` and writes the serialisation
of `P` under that key; a second call for the same id before that entry expires
(3600 seconds later) answers `P` again, from the cache, with no store access.
The JSON codec is assumed to give `P` back from its own serialisation, which
is not the empty text. -/
theorem getProblem_read_through (env : Env) (w : World) (P : Problem) (t1 t2 : Nat)
    (hmiss : redisGet w.cache t1 ("problem:" ++ P.id) = none)
    (hstore : env.store P.id = .ok (some P))
    (hrt : env.parse (env.stringify P) = .ok P)
    (hne : env.stringify P ≠ "")
    (ht : t2 < t1 + 3600) :
    (getProblem env t1 w P.id).responses = [⟨200, .problem P⟩]
      ∧ (getProblem env t1 w P.id).events = [.storeRead P.id]
      ∧ redisGet (getProblem env t1 w P.id).cache t2 ("problem:" ++ P.id)
          = some (env.stringify P)
      ∧ (getProblem env t2 ⟨(getProblem env t1 w P.id).cache, (getProblem env t1 w P.id).fs⟩
          P.id).responses = [⟨200, .problem P⟩]
      ∧ (getProblem env t2 ⟨(getProblem env t1 w P.id).cache, (getProblem env t1 w P.id).fs⟩
          P.id).events = [] := by
  have h1 : getProblem env t1 w P.id
      = ⟨redisSetEx w.cache t1 ("problem:" ++ P.id) 3600 (env.stringify P), w.fs,
          [.storeRead P.id], [⟨200, .problem P⟩], []⟩ := by
    simp [getProblem, hmiss, hstore]
  have hget := redisGet_setEx w.cache t1 t2 3600 ("problem:" ++ P.id) (env.stringify P) ht
  rw [h1]
  refine ⟨rfl, rfl, hget, ?_, ?_⟩ <;>
    simp [getProblem, hget, hne, hrt, Option.filter]

/-- Witness of C8: the scenario problem, fetched on an empty cache at time 0
and again 100 seconds later. -/
theorem getProblem_read_through_witness :
    (getProblem (sampleEnv (cleanExit "") (fun _ => cleanExit "")) 100
        ⟨(getProblem (sampleEnv (cleanExit "") (fun _ => cleanExit "")) 0 emptyWorld "p1").cache,
          (getProblem (sampleEnv (cleanExit "") (fun _ => cleanExit "")) 0 emptyWorld "p1").fs⟩
        "p1").events = [] :=
  (getProblem_read_through (sampleEnv (cleanExit "") (fun _ => cleanExit "")) emptyWorld
    sumProblem 0 100 (by decide) rfl rfl (by decide) (by decide)).2.2.2.2

end CodeCompiler
